import Mathlib

/-!
Shallow embedding of the tray hold-time aggregation engine of
`src/sbarro_report.py` (functions `fetch_sensor_readings`, `aggregate_metrics`,
and the per-location loop of `main`).

Modelling conventions:
* Python `datetime` values are the `DateTime` structure below; `datetime`
  comparison is lexicographic on the field tuple, as in CPython.
* `timedelta` values (hold times) are integers counting seconds; the parsed
  timestamps have second resolution, so no information is lost.
* Python `float` arithmetic (the percentage) and `timedelta / int`
  (the average) are modelled over `ℚ`; the values arising in the claims
  are exact in binary floating point as well.
* A reading is a string-keyed record whose required fields may be absent;
  absence triggers the `KeyError` path of the source, presence with an
  unparseable payload triggers the `ValueError` path of `strptime`.
* A Python `dict` is an association list in insertion order with unique
  keys; `d[k] = v` replaces in place when `k` exists and appends otherwise.
* A raised exception that the source does not catch is `Except.error ()`;
  `aggregate_metrics` therefore returns `Except Unit AggState`.
* `strptime` with the fixed formats `%Y%m%d_%H%M%S` and
  `%Y-%m-%d %H:%M:%S` is modelled on the canonical zero-padded width of
  each directive, with the value ranges the `datetime` constructor enforces.
-/

/-- A calendar timestamp with second resolution, the model of a parsed
Python `datetime`. -/
structure DateTime where
  year : Nat
  month : Nat
  day : Nat
  hour : Nat
  minute : Nat
  second : Nat
deriving Repr, DecidableEq

/-- Python `datetime.__lt__`: lexicographic comparison of the field tuple. -/
def DateTime.ltB (a b : DateTime) : Bool :=
  a.year < b.year || (a.year == b.year &&
    (a.month < b.month || (a.month == b.month &&
      (a.day < b.day || (a.day == b.day &&
        (a.hour < b.hour || (a.hour == b.hour &&
          (a.minute < b.minute || (a.minute == b.minute &&
            a.second < b.second)))))))))

/-- `a ≤ b` for timestamps, as the negation of strict reverse order. -/
def DateTime.leB (a b : DateTime) : Bool := !(DateTime.ltB b a)

/-- Python `min(a, b)`: keeps `a` and replaces it only when `b < a`. -/
def pymin (a b : DateTime) : DateTime := if DateTime.ltB b a then b else a

/-- Leap-year test of the Gregorian calendar (as in Python `calendar`). -/
def isLeap (y : Nat) : Bool := (y % 4 == 0 && y % 100 != 0) || (y % 400 == 0)

/-- Number of days of month `m` of year `y`. -/
def daysInMonth (y m : Nat) : Nat :=
  if m = 2 then (if isLeap y then 29 else 28)
  else if m = 4 ∨ m = 6 ∨ m = 9 ∨ m = 11 then 30
  else 31

/-- Days of all years before year `y` (proleptic Gregorian, year 1 first). -/
def daysBeforeYear (y : Nat) : Nat :=
  let n := y - 1
  n * 365 + n / 4 - n / 100 + n / 400

/-- Days of all months of year `y` before month `m`. -/
def daysBeforeMonth (y m : Nat) : Nat :=
  (([31, if isLeap y then 29 else 28, 31, 30, 31, 30, 31, 31, 30, 31, 30,
     31].take (m - 1)).foldl (· + ·) 0)

/-- Python `datetime.toordinal`. -/
def DateTime.toOrdinal (t : DateTime) : Nat :=
  daysBeforeYear t.year + daysBeforeMonth t.year t.month + t.day

/-- Seconds of a timestamp counted from the calendar origin; the difference
of two of these is the model of `datetime` subtraction (`timedelta`). -/
def DateTime.toSecs (t : DateTime) : Int :=
  ((t.toOrdinal * 86400 + t.hour * 3600 + t.minute * 60 + t.second : Nat) : Int)

/-- `current_timestamp - initial_timestamp` in seconds (line 77). -/
def holdTimeOf (it ct : DateTime) : Int := ct.toSecs - it.toSecs

/-- The threshold `timedelta(hours=4)` in seconds. -/
def holdThreshold : Int := 4 * 3600

/-- Digit character to its value. -/
def digVal (c : Char) : Option Nat :=
  if c.isDigit then some (c.toNat - 48) else none

/-- Two digit characters to their value. -/
def num2 (a b : Char) : Option Nat := do
  pure ((← digVal a) * 10 + (← digVal b))

/-- Four digit characters to their value. -/
def num4 (a b c d : Char) : Option Nat := do
  pure (((← digVal a) * 10 + (← digVal b)) * 100 + ((← digVal c) * 10 + (← digVal d)))

/-- The value ranges the Python `datetime` constructor accepts; a parse
whose fields fall outside raises `ValueError`. -/
def validDT (y m d h mi s : Nat) : Bool :=
  1 ≤ y && y ≤ 9999 && 1 ≤ m && m ≤ 12 && 1 ≤ d && d ≤ daysInMonth y m &&
    h ≤ 23 && mi ≤ 59 && s ≤ 59

/-- Build a timestamp when the fields are in range. -/
def mkDT (y m d h mi s : Nat) : Option DateTime :=
  if validDT y m d h mi s then some ⟨y, m, d, h, mi, s⟩ else none

/-- `datetime.strptime(s, "%Y%m%d_%H%M%S")` (line 75): `none` is the
`ValueError` path. -/
def parseInitialTS (s : String) : Option DateTime :=
  match s.toList with
  | [y1, y2, y3, y4, m1, m2, d1, d2, '_', h1, h2, mi1, mi2, s1, s2] => do
    mkDT (← num4 y1 y2 y3 y4) (← num2 m1 m2) (← num2 d1 d2)
      (← num2 h1 h2) (← num2 mi1 mi2) (← num2 s1 s2)
  | _ => none

/-- `datetime.strptime(s, "%Y-%m-%d %H:%M:%S")` (line 76): `none` is the
`ValueError` path. -/
def parseCurrentTS (s : String) : Option DateTime :=
  match s.toList with
  | [y1, y2, y3, y4, '-', m1, m2, '-', d1, d2, ' ', h1, h2, ':', mi1, mi2,
     ':', s1, s2] => do
    mkDT (← num4 y1 y2 y3 y4) (← num2 m1 m2) (← num2 d1 d2)
      (← num2 h1 h2) (← num2 mi1 mi2) (← num2 s1 s2)
  | _ => none

/-- Zero-pad a number to two digits. -/
def pad2 (n : Nat) : String := if n < 10 then "0" ++ toString n else toString n

/-- Zero-pad a number to four digits. -/
def pad4 (n : Nat) : String :=
  if n < 10 then "000" ++ toString n
  else if n < 100 then "00" ++ toString n
  else if n < 1000 then "0" ++ toString n
  else toString n

/-- `initial_timestamp.strftime("%Y-%m-%d")` (line 79): the day key. -/
def dayKeyOf (t : DateTime) : String :=
  pad4 t.year ++ "-" ++ pad2 t.month ++ "-" ++ pad2 t.day

/-- One tray reading as it reaches `aggregate_metrics`: a mapping whose
required fields may be absent (other fields are irrelevant to the core). -/
structure Reading where
  initial_timestamp : Option String
  current_timestamp : Option String
deriving Repr, DecidableEq

/-- One telemetry record: `records["data"]["readings"]["readings"]`. -/
structure Batch where
  readings : List Reading
deriving Repr, DecidableEq

/-- The per-(day, location) aggregate dictionary (lines 83-91). Before the
final pass, `average_hold_time` is absent (`none`). -/
structure Metrics where
  first_tray_time : DateTime
  last_tray_count : Nat
  last_tray_time : DateTime
  percentage_trays_over_hold : ℚ
  total_trays : Nat
  trays_exceeding_hold_time : Nat
  total_hold_time : Int
  average_hold_time : Option ℚ
deriving Repr, DecidableEq

/-- `daily_metrics`: day key → location name → metrics, each level a dict
in insertion order with unique keys. -/
abbrev AggState := List (String × List (String × Metrics))

/-- Dict lookup `d[k]` / `k in d`. -/
def alGet {β : Type} (l : List (String × β)) (k : String) : Option β :=
  match l with
  | [] => none
  | (k1, v) :: rest => if k1 = k then some v else alGet rest k

/-- Dict write `d[k] = v`: replace in place, or append a new key. -/
def alSet {β : Type} (l : List (String × β)) (k : String) (v : β) :
    List (String × β) :=
  match l with
  | [] => [(k, v)]
  | (k1, v1) :: rest =>
    if k1 = k then (k1, v) :: rest else (k1, v1) :: alSet rest k v

/-- The creation branch (lines 83-91): the dict seeded from the first
reading of a new (day, location) group. -/
def newMetrics (it : DateTime) (tt : Nat) (ht : Int) : Metrics :=
  { first_tray_time := it
    last_tray_count := tt
    last_tray_time := it
    percentage_trays_over_hold := 0
    total_trays := tt
    trays_exceeding_hold_time := if holdThreshold < ht then 1 else 0
    total_hold_time := ht
    average_hold_time := none }

/-- The update branch (lines 93-111) applied to an existing group. -/
def updateMetrics (m : Metrics) (it : DateTime) (tt : Nat) (ht : Int) :
    Metrics :=
  let m1 := { m with first_tray_time := pymin m.first_tray_time it }
  let m2 :=
    if m1.last_tray_count < tt ∨
        (tt = m1.last_tray_count ∧ DateTime.ltB m1.last_tray_time it) then
      { m1 with last_tray_time := it, last_tray_count := tt }
    else m1
  let m3 := { m2 with total_trays := Nat.max tt m2.total_trays,
                      total_hold_time := m2.total_hold_time + ht }
  if holdThreshold < ht then
    let te : Nat := m3.trays_exceeding_hold_time + 1
    { m3 with trays_exceeding_hold_time := te,
              percentage_trays_over_hold :=
                ((te : ℚ) / (m3.total_trays : ℚ)) * 100 }
  else m3

/-- Lines 79-111 once both timestamps parsed: locate or create the
(day, location) group and fold the reading in. -/
def processParsed (st : AggState) (loc : String) (tt : Nat)
    (it ct : DateTime) : AggState :=
  let ht := holdTimeOf it ct
  let day := dayKeyOf it
  let stores := (alGet st day).getD []
  match alGet stores loc with
  | none => alSet st day (alSet stores loc (newMetrics it tt ht))
  | some m => alSet st day (alSet stores loc (updateMetrics m it tt ht))

/-- The body of the reading loop (lines 74-114). A missing field raises
`KeyError`, which is caught: the reading is skipped with no mutation. An
unparseable present field raises `ValueError`, which is NOT caught: the
whole call aborts. -/
def processReading (st : AggState) (loc : String) (tt : Nat) (r : Reading) :
    Except Unit AggState :=
  match r.initial_timestamp with
  | none => .ok st
  | some s1 =>
    match parseInitialTS s1 with
    | none => .error ()
    | some it =>
      match r.current_timestamp with
      | none => .ok st
      | some s2 =>
        match parseCurrentTS s2 with
        | none => .error ()
        | some ct => .ok (processParsed st loc tt it ct)

/-- One batch (lines 70-114): `total_trays = len(readings)`, then the
reading loop. -/
def processBatch (st : AggState) (loc : String) (b : Batch) :
    Except Unit AggState :=
  b.readings.foldlM (fun s r => processReading s loc b.readings.length r) st

/-- The whole reading-ingestion loop of `aggregate_metrics` over the
fetched data. -/
def ingest (data : List Batch) (loc : String) (st : AggState) :
    Except Unit AggState :=
  data.foldlM (fun s b => processBatch s loc b) st

/-- The finalizer assignment (line 121) for one group. -/
def setAverage (m : Metrics) : Metrics :=
  let avg : ℚ :=
    if 0 < m.total_trays then (m.total_hold_time : ℚ) / (m.total_trays : ℚ)
    else 0
  { m with average_hold_time := some avg }

/-- The finalizer traversal (lines 117-121). -/
def finalizePass (st : AggState) : AggState :=
  st.map (fun p => (p.1, p.2.map (fun q => (q.1, setAverage q.2))))

/-- Code-point lexicographic strict comparison of character lists: the
order Python uses to compare the day-key strings. -/
def strLtChars : List Char → List Char → Bool
  | [], [] => false
  | [], _ :: _ => true
  | _ :: _, [] => false
  | c :: cs, d :: ds =>
    if c.toNat < d.toNat then true
    else if d.toNat < c.toNat then false
    else strLtChars cs ds

/-- Python `a < b` on strings. -/
def strLtB (a b : String) : Bool := strLtChars a.toList b.toList

/-- Python `a <= b` on strings. -/
def strLeB (a b : String) : Bool := !(strLtB b a)

/-- Key-ordering relation used to model `sorted(d.items())`: tuples with
unique first components compare by key alone. -/
abbrev keyRel {β : Type} (a b : String × β) : Prop := strLeB a.1 b.1 = true

/-- The ordering comprehension (line 123): days sorted ascending, and the
locations of each day sorted ascending. Python `sorted` is modelled by a
sort that is extensionally unique here because dict keys are distinct. -/
def sortState (st : AggState) : AggState :=
  (st.insertionSort keyRel).map (fun p => (p.1, p.2.insertionSort keyRel))

/-- `aggregate_metrics(data, daily_metrics, location_name)` (lines 68-124):
ingestion, then the average pass, then ordering. An uncaught exception
inside the loop aborts the call. -/
def aggregate_metrics (data : List Batch) (daily_metrics : AggState)
    (location_name : String) : Except Unit AggState := do
  let st ← ingest data location_name daily_metrics
  pure (sortState (finalizePass st))

/-- The value `fetch_sensor_readings` hands back (lines 39-61), given the
outcome of the awaited query: an exception yields `[]` (line 61); an empty
response yields the value of `print(...)`, i.e. Python `None` (line 58),
modelled as `Option.none`; a non-empty response is returned as is. -/
def fetch_sensor_readings (outcome : Except Unit (List Batch)) :
    Option (List Batch) :=
  match outcome with
  | .error _ => some []
  | .ok response => if response.isEmpty then none else some response

/-- One iteration of the per-location loop of `main` (lines 246-249):
`aggregate_metrics(data, daily_metrics, location_name)` where `data` is
what `fetch_sensor_readings` returned. Iterating Python `None` raises
`TypeError`, which nothing catches. -/
def mainStep (fetched : Option (List Batch)) (st : AggState)
    (loc : String) : Except Unit AggState :=
  match fetched with
  | none => .error ()
  | some data => aggregate_metrics data st loc

/-- The whole reporting run over a list of locations, each location giving
its batch list and resolved display name, starting from the empty
`daily_metrics = {}` of `main` (line 245). -/
def runAll (locs : List (List Batch × String)) : Except Unit AggState :=
  locs.foldlM (fun st p => aggregate_metrics p.1 st p.2) []

/-- Lookup of the metrics of a (day, location) group, `none` when the group
does not exist; matches the two-level dict access of the source. -/
def lookup2 (st : AggState) (day loc : String) : Option Metrics :=
  alGet ((alGet st day).getD []) loc

/-- The monotone-evolution relation between two aggregation states: every
group of the first is still present in the second, its `total_trays` and
`trays_exceeding_hold_time` have not decreased, and its `first_tray_time`
has not increased. -/
def MonoLe (s s1 : AggState) : Prop :=
  ∀ d l m, lookup2 s d l = some m →
    ∃ m1, lookup2 s1 d l = some m1 ∧
      m.total_trays ≤ m1.total_trays ∧
      m.trays_exceeding_hold_time ≤ m1.trays_exceeding_hold_time ∧
      DateTime.leB m1.first_tray_time m.first_tray_time = true

/-! ### A predicate over every group value of a state -/

/-- `P` holds of the metrics of every (day, location) group of `st`. -/
def AllVals (P : Metrics → Prop) (st : AggState) : Prop :=
  ∀ p ∈ st, ∀ q ∈ p.2, P q.2

/-! ### Concrete inputs used by the examples of the spec -/

/-- A reading with both fields present. -/
def rdg (s1 s2 : String) : Reading := ⟨some s1, some s2⟩

/-- One reading held five hours (exceeds the 4h threshold). -/
def exBatchHold5 : Batch := ⟨[rdg "20250301_080000" "2025-03-01 13:00:00"]⟩

/-- Batch A of the tie-break example: `(initial=09:00, total=5)`. -/
def exBatchA : Batch :=
  ⟨List.replicate 5 (rdg "20250301_090000" "2025-03-01 10:00:00")⟩

/-- Batch B of the tie-break example: `(initial=09:05, total=5)`. -/
def exBatchB : Batch :=
  ⟨List.replicate 5 (rdg "20250301_090500" "2025-03-01 10:00:00")⟩

/-- Batch C of the tie-break example: `(initial=08:50, total=6)`. -/
def exBatchC : Batch :=
  ⟨List.replicate 6 (rdg "20250301_085000" "2025-03-01 10:00:00")⟩

/-- A batch of `n` same-day readings, for the monotonicity example. -/
def exBatchOf (n : Nat) : Batch :=
  ⟨List.replicate n (rdg "20250301_090000" "2025-03-01 10:00:00")⟩

/-- A reading whose `initial_timestamp` is present but unparseable. -/
def exBadInitial : Reading := ⟨some "garbage", some "2025-03-01 10:00:00"⟩

/-- A reading missing its `current_timestamp`. -/
def exMissingCurrent : Reading := ⟨some "20250301_091000", none⟩

/-- A well-formed reading held one hour. -/
def exWellFormed : Reading := rdg "20250301_090000" "2025-03-01 10:00:00"

/-- A reading whose `current_timestamp` precedes its `initial_timestamp`:
its derived hold time is negative (-3600 s). -/
def exNegative : Reading := rdg "20250301_120000" "2025-03-01 11:00:00"

/-- Two readings of the same group held 2h and 6h. -/
def exBatchAvg : Batch :=
  ⟨[rdg "20250301_080000" "2025-03-01 10:00:00",
    rdg "20250301_080000" "2025-03-01 14:00:00"]⟩

/-- 09:00 on the example day. -/
def dt0900 : DateTime := ⟨2025, 3, 1, 9, 0, 0⟩

/-- A seed group used by witnesses: created from a 5-reading batch at 09:00
with a one-hour hold. -/
def exSeedM : Metrics := newMetrics dt0900 5 3600

/-- A one-group state used by witnesses. -/
def exSeedState : AggState := [("2025-03-01", [("Loc", exSeedM)])]

/-- The group produced by `exBatchAvg` after the full `aggregate_metrics`
call; the rational fields are written as the unreduced arithmetic the code
performs (1/2·100 = 50 percent, 28800/2 = 14400 seconds = 4 hours). -/
def exAvgM : Metrics :=
  ⟨⟨2025, 3, 1, 8, 0, 0⟩, 2, ⟨2025, 3, 1, 8, 0, 0⟩,
    ((1 : Nat) : ℚ) / ((2 : Nat) : ℚ) * 100, 2, 1, 28800,
    some (((28800 : Int) : ℚ) / ((2 : Nat) : ℚ))⟩

/-- The state produced by `aggregate_metrics [exBatchAvg] [] "Loc"`. -/
def exAvgState : AggState := [("2025-03-01", [("Loc", exAvgM)])]

/-! ### Order facts for timestamps -/

theorem dt_ltB_irrefl (a : DateTime) : DateTime.ltB a a = false := by
  simp [DateTime.ltB]

theorem dt_ltB_asymm {a b : DateTime} (h : DateTime.ltB a b = true) :
    DateTime.ltB b a = false := by
  simp only [DateTime.ltB, Bool.or_eq_true, Bool.and_eq_true, beq_iff_eq,
    decide_eq_true_eq, Bool.or_eq_false_iff, Bool.and_eq_false_iff,
    decide_eq_false_iff_not, beq_eq_false_iff_ne, ne_eq] at h ⊢
  omega

theorem dt_leB_refl (a : DateTime) : DateTime.leB a a = true := by
  simp [DateTime.leB, dt_ltB_irrefl]

theorem dt_leB_trans {a b c : DateTime} (h1 : DateTime.leB a b = true)
    (h2 : DateTime.leB b c = true) : DateTime.leB a c = true := by
  simp only [DateTime.leB, DateTime.ltB, Bool.not_eq_true', Bool.or_eq_true,
    Bool.and_eq_true, beq_iff_eq, decide_eq_true_eq, Bool.or_eq_false_iff,
    Bool.and_eq_false_iff, decide_eq_false_iff_not, beq_eq_false_iff_ne,
    ne_eq] at h1 h2 ⊢
  omega

theorem pymin_leB_left (a b : DateTime) :
    DateTime.leB (pymin a b) a = true := by
  unfold pymin
  by_cases h : DateTime.ltB b a = true
  · simp only [h, if_true, DateTime.leB, dt_ltB_asymm h, Bool.not_false]
  · simp only [Bool.not_eq_true] at h
    simp [h, dt_leB_refl]

/-! ### Association-list facts -/

theorem alGet_alSet_self {β : Type} (l : List (String × β)) (k : String)
    (v : β) : alGet (alSet l k v) k = some v := by
  induction l with
  | nil => simp [alSet, alGet]
  | cons hd tl ih =>
    by_cases h : hd.1 = k
    · simp [alSet, alGet, h]
    · simpa [alSet, alGet, h] using ih

theorem alGet_alSet_ne {β : Type} (l : List (String × β)) {k k1 : String}
    (v : β) (h : k ≠ k1) : alGet (alSet l k v) k1 = alGet l k1 := by
  induction l with
  | nil => simp [alSet, alGet, h]
  | cons hd tl ih =>
    by_cases h1 : hd.1 = k
    · simp [alSet, alGet, h1, h]
    · simp [alSet, alGet, h1, ih]

theorem mem_alSet {β : Type} {l : List (String × β)} {k : String} {v : β}
    {p : String × β} (h : p ∈ alSet l k v) : p = (k, v) ∨ p ∈ l := by
  induction l with
  | nil => simpa [alSet] using h
  | cons hd tl ih =>
    by_cases h1 : hd.1 = k
    · simp only [alSet, h1, if_true, List.mem_cons] at h
      rcases h with h | h
      · exact Or.inl h
      · exact Or.inr (List.mem_cons_of_mem _ h)
    · simp only [alSet, h1, if_false, List.mem_cons] at h
      rcases h with h | h
      · subst h; exact Or.inr (List.mem_cons_self _ _)
      · rcases ih h with h2 | h2
        · exact Or.inl h2
        · exact Or.inr (List.mem_cons_of_mem _ h2)

theorem alGet_mem {β : Type} {l : List (String × β)} {k : String} {v : β}
    (h : alGet l k = some v) : (k, v) ∈ l := by
  induction l with
  | nil => simp [alGet] at h
  | cons hd tl ih =>
    by_cases h1 : hd.1 = k
    · simp only [alGet, h1, if_true, Option.some_inj] at h
      subst h; subst h1; simp
    · simp only [alGet, h1, if_false] at h
      exact List.mem_cons_of_mem _ (ih h)

/-! ### Field equations of the update branch -/

theorem updateMetrics_first (m : Metrics) (it : DateTime) (tt : Nat)
    (ht : Int) : (updateMetrics m it tt ht).first_tray_time =
      pymin m.first_tray_time it := by
  simp only [updateMetrics]
  split <;> split <;> rfl

theorem updateMetrics_last_time (m : Metrics) (it : DateTime) (tt : Nat)
    (ht : Int) : (updateMetrics m it tt ht).last_tray_time =
      (if m.last_tray_count < tt ∨
          (tt = m.last_tray_count ∧ DateTime.ltB m.last_tray_time it) then it
       else m.last_tray_time) := by
  simp only [updateMetrics]
  split <;> split <;> rfl

theorem updateMetrics_last_count (m : Metrics) (it : DateTime) (tt : Nat)
    (ht : Int) : (updateMetrics m it tt ht).last_tray_count =
      (if m.last_tray_count < tt ∨
          (tt = m.last_tray_count ∧ DateTime.ltB m.last_tray_time it) then tt
       else m.last_tray_count) := by
  simp only [updateMetrics]
  split <;> split <;> rfl

theorem updateMetrics_total_trays (m : Metrics) (it : DateTime) (tt : Nat)
    (ht : Int) : (updateMetrics m it tt ht).total_trays =
      Nat.max tt m.total_trays := by
  simp only [updateMetrics]
  split <;> split <;> rfl

theorem updateMetrics_total_hold (m : Metrics) (it : DateTime) (tt : Nat)
    (ht : Int) : (updateMetrics m it tt ht).total_hold_time =
      m.total_hold_time + ht := by
  simp only [updateMetrics]
  split <;> split <;> rfl

theorem updateMetrics_exceeding (m : Metrics) (it : DateTime) (tt : Nat)
    (ht : Int) : (updateMetrics m it tt ht).trays_exceeding_hold_time =
      (if holdThreshold < ht then m.trays_exceeding_hold_time + 1
       else m.trays_exceeding_hold_time) := by
  simp only [updateMetrics]
  split <;> split <;> rfl

theorem updateMetrics_percentage (m : Metrics) (it : DateTime) (tt : Nat)
    (ht : Int) : (updateMetrics m it tt ht).percentage_trays_over_hold =
      (if holdThreshold < ht then
        (((m.trays_exceeding_hold_time + 1 : Nat) : ℚ) /
          ((Nat.max tt m.total_trays : Nat) : ℚ)) * 100
       else m.percentage_trays_over_hold) := by
  simp only [updateMetrics]
  split <;> split <;> rfl

/-! ### Generic folding lemmas over the `Except`-valued loops -/

theorem except_foldlM_rel {α : Type} (f : AggState → α → Except Unit AggState)
    (P : AggState → AggState → Prop) (hrefl : ∀ s, P s s)
    (htrans : ∀ a b c, P a b → P b c → P a c)
    (hstep : ∀ s x s1, f s x = .ok s1 → P s s1) :
    ∀ (l : List α) (s s1 : AggState), l.foldlM f s = .ok s1 → P s s1 := by
  intro l
  induction l with
  | nil =>
    intro s s1 h
    simp only [List.foldlM_nil] at h
    cases h
    exact hrefl s
  | cons x xs ih =>
    intro s s1 h
    simp only [List.foldlM_cons] at h
    cases hx : f s x with
    | error e => rw [hx] at h; cases h
    | ok smid =>
      rw [hx] at h
      exact htrans _ _ _ (hstep s x smid hx) (ih smid s1 h)

theorem except_foldlM_inv {α : Type} (f : AggState → α → Except Unit AggState)
    (Q : AggState → Prop)
    (hstep : ∀ s x s1, Q s → f s x = .ok s1 → Q s1) :
    ∀ (l : List α) (s s1 : AggState), Q s → l.foldlM f s = .ok s1 → Q s1 := by
  intro l
  induction l with
  | nil =>
    intro s s1 hq h
    simp only [List.foldlM_nil] at h
    cases h
    exact hq
  | cons x xs ih =>
    intro s s1 hq h
    simp only [List.foldlM_cons] at h
    cases hx : f s x with
    | error e => rw [hx] at h; cases h
    | ok smid =>
      rw [hx] at h
      exact ih smid s1 (hstep s x smid hq hx) h

/-! ### Per-group monotonicity of the ingestion loop -/

theorem monoLe_refl (s : AggState) : MonoLe s s := by
  intro d l m h
  exact ⟨m, h, le_refl _, le_refl _, dt_leB_refl _⟩

theorem monoLe_trans (a b c : AggState) (h1 : MonoLe a b) (h2 : MonoLe b c) :
    MonoLe a c := by
  intro d l m h
  obtain ⟨m1, hm1, ht1, he1, hf1⟩ := h1 d l m h
  obtain ⟨m2, hm2, ht2, he2, hf2⟩ := h2 d l m1 hm1
  exact ⟨m2, hm2, le_trans ht1 ht2, le_trans he1 he2, dt_leB_trans hf2 hf1⟩

theorem lookup2_processParsed_other (st : AggState) (loc : String) (tt : Nat)
    (it ct : DateTime) (d l : String)
    (h : ¬(d = dayKeyOf it ∧ l = loc)) :
    lookup2 (processParsed st loc tt it ct) d l = lookup2 st d l := by
  unfold processParsed lookup2
  by_cases hd : dayKeyOf it = d
  · subst hd
    have hl : loc ≠ l := by
      intro hE
      exact h ⟨rfl, hE.symm⟩
    cases hsl : alGet ((alGet st (dayKeyOf it)).getD []) loc <;>
      simp only [hsl] <;>
      rw [alGet_alSet_self, Option.getD_some, alGet_alSet_ne _ _ hl]
  · cases hsl : alGet ((alGet st (dayKeyOf it)).getD []) loc <;>
      simp only [hsl] <;>
      rw [alGet_alSet_ne _ _ hd]

theorem lookup2_processParsed_hit (st : AggState) (loc : String) (tt : Nat)
    (it ct : DateTime) :
    lookup2 (processParsed st loc tt it ct) (dayKeyOf it) loc =
      some (match lookup2 st (dayKeyOf it) loc with
            | none => newMetrics it tt (holdTimeOf it ct)
            | some m => updateMetrics m it tt (holdTimeOf it ct)) := by
  unfold processParsed lookup2
  cases hsl : alGet ((alGet st (dayKeyOf it)).getD []) loc <;>
    simp only [hsl] <;>
    rw [alGet_alSet_self, Option.getD_some, alGet_alSet_self]

theorem processParsed_monoLe (st : AggState) (loc : String) (tt : Nat)
    (it ct : DateTime) : MonoLe st (processParsed st loc tt it ct) := by
  intro d l m h
  by_cases hdl : d = dayKeyOf it ∧ l = loc
  · obtain ⟨hd, hl⟩ := hdl
    subst hd; subst hl
    refine ⟨updateMetrics m it tt (holdTimeOf it ct), ?_, ?_, ?_, ?_⟩
    · rw [lookup2_processParsed_hit, h]
    · rw [updateMetrics_total_trays]
      exact Nat.le_max_right _ _
    · rw [updateMetrics_exceeding]
      split
      · exact Nat.le_succ _
      · exact le_refl _
    · rw [updateMetrics_first]
      exact pymin_leB_left _ _
  · refine ⟨m, ?_, le_refl _, le_refl _, dt_leB_refl _⟩
    rw [lookup2_processParsed_other st loc tt it ct d l hdl]
    exact h

theorem processReading_monoLe (st : AggState) (loc : String) (tt : Nat)
    (r : Reading) (s1 : AggState) (h : processReading st loc tt r = .ok s1) :
    MonoLe st s1 := by
  unfold processReading at h
  cases h1 : r.initial_timestamp with
  | none => rw [h1] at h; cases h; exact monoLe_refl _
  | some str1 =>
    rw [h1] at h
    dsimp only at h
    cases h2 : parseInitialTS str1 with
    | none => rw [h2] at h; cases h
    | some it =>
      rw [h2] at h
      dsimp only at h
      cases h3 : r.current_timestamp with
      | none => rw [h3] at h; cases h; exact monoLe_refl _
      | some str2 =>
        rw [h3] at h
        dsimp only at h
        cases h4 : parseCurrentTS str2 with
        | none => rw [h4] at h; cases h
        | some ct =>
          rw [h4] at h
          cases h
          exact processParsed_monoLe st loc tt it ct

theorem processBatch_monoLe (st : AggState) (loc : String) (b : Batch)
    (s1 : AggState) (h : processBatch st loc b = .ok s1) : MonoLe st s1 :=
  except_foldlM_rel _ MonoLe monoLe_refl monoLe_trans
    (fun s r s2 hs => processReading_monoLe s loc b.readings.length r s2 hs)
    b.readings st s1 h

theorem ingest_monoLe (data : List Batch) (loc : String) (st s1 : AggState)
    (h : ingest data loc st = .ok s1) : MonoLe st s1 :=
  except_foldlM_rel _ MonoLe monoLe_refl monoLe_trans
    (fun s b s2 hs => processBatch_monoLe s loc b s2 hs) data st s1 h

/-! ### Case equations of the reading loop body -/

theorem processReading_missing_initial (st : AggState) (loc : String)
    (tt : Nat) (r : Reading) (h : r.initial_timestamp = none) :
    processReading st loc tt r = .ok st := by
  unfold processReading
  rw [h]

theorem processReading_missing_current (st : AggState) (loc : String)
    (tt : Nat) (r : Reading) (str1 : String) (it : DateTime)
    (h1 : r.initial_timestamp = some str1) (h2 : parseInitialTS str1 = some it)
    (h3 : r.current_timestamp = none) :
    processReading st loc tt r = .ok st := by
  unfold processReading
  rw [h1]
  dsimp only
  rw [h2]
  dsimp only
  rw [h3]

theorem processReading_bad_initial (st : AggState) (loc : String)
    (tt : Nat) (r : Reading) (str1 : String)
    (h1 : r.initial_timestamp = some str1) (h2 : parseInitialTS str1 = none) :
    processReading st loc tt r = .error () := by
  unfold processReading
  rw [h1]
  dsimp only
  rw [h2]

theorem processReading_bad_current (st : AggState) (loc : String)
    (tt : Nat) (r : Reading) (str1 str2 : String) (it : DateTime)
    (h1 : r.initial_timestamp = some str1) (h2 : parseInitialTS str1 = some it)
    (h3 : r.current_timestamp = some str2) (h4 : parseCurrentTS str2 = none) :
    processReading st loc tt r = .error () := by
  unfold processReading
  rw [h1]
  dsimp only
  rw [h2]
  dsimp only
  rw [h3]
  dsimp only
  rw [h4]

theorem processReading_parsed (st : AggState) (loc : String)
    (tt : Nat) (r : Reading) (str1 str2 : String) (it ct : DateTime)
    (h1 : r.initial_timestamp = some str1) (h2 : parseInitialTS str1 = some it)
    (h3 : r.current_timestamp = some str2)
    (h4 : parseCurrentTS str2 = some ct) :
    processReading st loc tt r = .ok (processParsed st loc tt it ct) := by
  unfold processReading
  rw [h1]
  dsimp only
  rw [h2]
  dsimp only
  rw [h3]
  dsimp only
  rw [h4]

theorem allVals_processParsed {P : Metrics → Prop} {st : AggState}
    (loc : String) (tt : Nat) (it ct : DateTime) (h : AllVals P st)
    (hnew : P (newMetrics it tt (holdTimeOf it ct)))
    (hupd : ∀ m, P m → P (updateMetrics m it tt (holdTimeOf it ct))) :
    AllVals P (processParsed st loc tt it ct) := by
  unfold processParsed
  dsimp only
  have hstores : ∀ q ∈ (alGet st (dayKeyOf it)).getD [], P q.2 := by
    intro q hq
    cases hd : alGet st (dayKeyOf it) with
    | none => rw [hd] at hq; cases hq
    | some ls =>
      rw [hd] at hq
      exact h _ (alGet_mem hd) q hq
  cases hm : alGet ((alGet st (dayKeyOf it)).getD []) loc with
  | none =>
    intro p hp q hq
    rcases mem_alSet hp with hp1 | hp1
    · subst hp1
      rcases mem_alSet hq with hq1 | hq1
      · subst hq1; exact hnew
      · exact hstores q hq1
    · exact h p hp1 q hq
  | some m0 =>
    intro p hp q hq
    rcases mem_alSet hp with hp1 | hp1
    · subst hp1
      rcases mem_alSet hq with hq1 | hq1
      · subst hq1
        exact hupd m0 (hstores (loc, m0) (alGet_mem hm))
      · exact hstores q hq1
    · exact h p hp1 q hq

theorem allVals_finalizePass {P Q : Metrics → Prop} {st : AggState}
    (h : AllVals P st) (himp : ∀ m, P m → Q (setAverage m)) :
    AllVals Q (finalizePass st) := by
  intro p hp q hq
  obtain ⟨p0, hp0, hpe⟩ := List.mem_map.1 hp
  subst hpe
  obtain ⟨q0, hq0, hqe⟩ := List.mem_map.1 hq
  subst hqe
  exact himp _ (h p0 hp0 q0 hq0)

theorem allVals_sortState {P : Metrics → Prop} {st : AggState}
    (h : AllVals P st) : AllVals P (sortState st) := by
  intro p hp q hq
  obtain ⟨p0, hp0, hpe⟩ := List.mem_map.1 hp
  subst hpe
  have hmem : p0 ∈ st := (List.perm_insertionSort keyRel st).mem_iff.1 hp0
  have hq0 : q ∈ p0.2 := (List.perm_insertionSort keyRel p0.2).mem_iff.1 hq
  exact h p0 hmem q hq0

theorem allVals_true (st : AggState) : AllVals (fun _ => True) st :=
  fun _ _ _ _ => trivial

/-! ### The groups-are-nonempty invariant -/

theorem processReading_ge1 {st s1 : AggState} (loc : String) (tt : Nat)
    (r : Reading) (htt : 1 ≤ tt)
    (h : AllVals (fun m => 1 ≤ m.total_trays) st)
    (hr : processReading st loc tt r = .ok s1) :
    AllVals (fun m => 1 ≤ m.total_trays) s1 := by
  unfold processReading at hr
  cases h1 : r.initial_timestamp with
  | none => rw [h1] at hr; cases hr; exact h
  | some str1 =>
    rw [h1] at hr
    dsimp only at hr
    cases h2 : parseInitialTS str1 with
    | none => rw [h2] at hr; cases hr
    | some it =>
      rw [h2] at hr
      dsimp only at hr
      cases h3 : r.current_timestamp with
      | none => rw [h3] at hr; cases hr; exact h
      | some str2 =>
        rw [h3] at hr
        dsimp only at hr
        cases h4 : parseCurrentTS str2 with
        | none => rw [h4] at hr; cases hr
        | some ct =>
          rw [h4] at hr
          cases hr
          refine allVals_processParsed loc tt it ct h htt ?_
          intro m hm
          rw [updateMetrics_total_trays]
          exact le_trans hm (Nat.le_max_right _ _)

theorem processBatch_ge1 {st s1 : AggState} (loc : String) (b : Batch)
    (h : AllVals (fun m => 1 ≤ m.total_trays) st)
    (hb : processBatch st loc b = .ok s1) :
    AllVals (fun m => 1 ≤ m.total_trays) s1 := by
  unfold processBatch at hb
  cases hr : b.readings with
  | nil =>
    rw [hr] at hb
    simp only [List.foldlM_nil] at hb
    cases hb
    exact h
  | cons x xs =>
    rw [hr] at hb
    exact except_foldlM_inv _ _
      (fun s r s2 hq hs =>
        processReading_ge1 loc (x :: xs).length r (by simp) hq hs)
      (x :: xs) st s1 h hb

theorem ingest_ge1 {st s1 : AggState} (data : List Batch) (loc : String)
    (h : AllVals (fun m => 1 ≤ m.total_trays) st)
    (hi : ingest data loc st = .ok s1) :
    AllVals (fun m => 1 ≤ m.total_trays) s1 :=
  except_foldlM_inv _ _ (fun _ b _ hq hs => processBatch_ge1 loc b hq hs)
    data st s1 h hi

theorem aggregate_metrics_split {data : List Batch} {dm s2 : AggState}
    {loc : String} (h : aggregate_metrics data dm loc = .ok s2) :
    ∃ s1, ingest data loc dm = .ok s1 ∧ s2 = sortState (finalizePass s1) := by
  unfold aggregate_metrics at h
  cases hi : ingest data loc dm with
  | error e => rw [hi] at h; cases h
  | ok s1 =>
    rw [hi] at h
    refine ⟨s1, rfl, ?_⟩
    cases h
    rfl

/-! ### Sortedness of the finalized state -/

theorem strLtChars_trans : ∀ (a b c : List Char), strLtChars a b = true →
    strLtChars b c = true → strLtChars a c = true := by
  intro a
  induction a with
  | nil =>
    intro b c hab hbc
    cases b with
    | nil => cases hab
    | cons y ys =>
      cases c with
      | nil => simp [strLtChars] at hbc
      | cons z zs => rfl
  | cons x xs ih =>
    intro b c hab hbc
    cases b with
    | nil => simp [strLtChars] at hab
    | cons y ys =>
      cases c with
      | nil => simp [strLtChars] at hbc
      | cons z zs =>
        simp only [strLtChars] at hab hbc ⊢
        rcases Nat.lt_trichotomy x.toNat y.toNat with h1 | h1 | h1
        · rcases Nat.lt_trichotomy y.toNat z.toNat with h2 | h2 | h2
          · rw [if_pos (by omega)]
          · rw [if_pos (by omega)]
          · rw [if_neg (by omega), if_pos h2] at hbc; cases hbc
        · rcases Nat.lt_trichotomy y.toNat z.toNat with h2 | h2 | h2
          · rw [if_pos (by omega)]
          · rw [if_neg (by omega), if_neg (by omega)] at hab hbc ⊢
            exact ih ys zs hab hbc
          · rw [if_neg (by omega), if_pos h2] at hbc; cases hbc
        · rw [if_neg (by omega), if_pos h1] at hab; cases hab

theorem strLtChars_asymm : ∀ (a b : List Char), strLtChars a b = true →
    strLtChars b a = false := by
  intro a
  induction a with
  | nil =>
    intro b hab
    cases b with
    | nil => cases hab
    | cons y ys => rfl
  | cons x xs ih =>
    intro b hab
    cases b with
    | nil => simp [strLtChars] at hab
    | cons y ys =>
      simp only [strLtChars] at hab ⊢
      rcases Nat.lt_trichotomy x.toNat y.toNat with h1 | h1 | h1
      · rw [if_neg (by omega), if_pos h1]
      · rw [if_neg (by omega), if_neg (by omega)] at hab ⊢
        exact ih ys hab
      · rw [if_neg (by omega), if_pos h1] at hab; cases hab

theorem keyRel_total {β : Type} (a b : String × β) : keyRel a b ∨ keyRel b a := by
  unfold keyRel strLeB strLtB
  cases h : strLtChars b.1.toList a.1.toList
  · left; rfl
  · right
    rw [strLtChars_asymm _ _ h]
    rfl

theorem strLtChars_neg_trans : ∀ (a b c : List Char),
    strLtChars b a = false → strLtChars c b = false →
    strLtChars c a = false := by
  intro a
  induction a with
  | nil =>
    intro b c hba hcb
    cases c with
    | nil => rfl
    | cons z zs => rfl
  | cons x xs ih =>
    intro b c hba hcb
    cases b with
    | nil => cases hba
    | cons y ys =>
      cases c with
      | nil => cases hcb
      | cons z zs =>
        simp only [strLtChars] at hba hcb ⊢
        rcases Nat.lt_trichotomy x.toNat y.toNat with h1 | h1 | h1
        · -- x < y, and from hcb the first test gives ¬ z < y
          by_cases h2 : z.toNat < y.toNat
          · rw [if_pos h2] at hcb; cases hcb
          · rw [if_neg (by omega), if_pos (by omega)]
        · -- x = y
          by_cases h2 : z.toNat < y.toNat
          · rw [if_pos h2] at hcb; cases hcb
          · rcases Nat.lt_trichotomy y.toNat z.toNat with h3 | h3 | h3
            · rw [if_neg (by omega), if_pos (by omega)]
            · rw [if_neg (by omega), if_neg (by omega)] at hba hcb ⊢
              exact ih ys zs hba hcb
            · omega
        · rw [if_pos h1] at hba; cases hba

theorem keyRel_trans {β : Type} (a b c : String × β) (hab : keyRel a b)
    (hbc : keyRel b c) : keyRel a c := by
  unfold keyRel strLeB strLtB at hab hbc ⊢
  rw [Bool.not_eq_true'] at hab hbc ⊢
  exact strLtChars_neg_trans _ _ _ hab hbc

theorem sortState_days_sorted (st : AggState) :
    ((sortState st).map Prod.fst).Sorted (fun a b => strLeB a b = true) := by
  unfold sortState
  rw [List.map_map]
  have hmap : (Prod.fst ∘ fun p : String × List (String × Metrics) =>
      (p.1, p.2.insertionSort keyRel)) = Prod.fst := rfl
  rw [hmap]
  have hs := @List.sorted_insertionSort (String × List (String × Metrics))
    keyRel _ ⟨fun a b => keyRel_total a b⟩
    ⟨fun a b c hab hbc => keyRel_trans a b c hab hbc⟩ st
  exact List.pairwise_map.2 hs

theorem sortState_inner_sorted (st : AggState)
    (p : String × List (String × Metrics)) (hp : p ∈ sortState st) :
    (p.2.map Prod.fst).Sorted (fun a b => strLeB a b = true) := by
  unfold sortState at hp
  obtain ⟨p0, hp0, hpe⟩ := List.mem_map.1 hp
  subst hpe
  have hs := @List.sorted_insertionSort (String × Metrics)
    keyRel _ ⟨fun a b => keyRel_total a b⟩
    ⟨fun a b c hab hbc => keyRel_trans a b c hab hbc⟩ p0.2
  exact List.pairwise_map.2 hs

/-! ## Claims -/

/-- Claim C1, counterexample: a (day, location) group whose only reading has
`hold_time` of 5 hours (above the 4-hour threshold) ends with
`total_trays = 1`, `trays_exceeding_hold_time = 1`, but
`percentage_trays_over_hold = 0`, not `100.0`: the creation branch (line 87)
seeds the percentage with `0` and never recomputes it. -/
theorem c1_counterexample :
    (aggregate_metrics [exBatchHold5] [] "Loc").map
      (fun st => (lookup2 st "2025-03-01" "Loc").map
        (fun m => (m.total_trays, m.trays_exceeding_hold_time,
          m.percentage_trays_over_hold))) = .ok (some (1, 1, (0 : ℚ))) ∧
    (0 : ℚ) ≠ 100 := by
  exact ⟨rfl, by norm_num⟩

/-- Claim C1 (amended): on creation an exceeding reading sets
`trays_exceeding_hold_time = 1` but leaves `percentage_trays_over_hold = 0`;
only when an exceeding reading updates an existing group is the percentage
recomputed as `trays_exceeding_hold_time / total_trays * 100` with the
current (just-updated) `total_trays` (lines 105-111). -/
theorem c1_percentage_recompute (m : Metrics) (it : DateTime) (tt : Nat)
    (ht : Int) (h : holdThreshold < ht) :
    (newMetrics it tt ht).percentage_trays_over_hold = 0 ∧
    (newMetrics it tt ht).trays_exceeding_hold_time = 1 ∧
    (updateMetrics m it tt ht).trays_exceeding_hold_time =
      m.trays_exceeding_hold_time + 1 ∧
    (updateMetrics m it tt ht).total_trays = Nat.max tt m.total_trays ∧
    (updateMetrics m it tt ht).percentage_trays_over_hold =
      (((m.trays_exceeding_hold_time + 1 : Nat) : ℚ) /
        ((Nat.max tt m.total_trays : Nat) : ℚ)) * 100 := by
  refine ⟨rfl, ?_, ?_, updateMetrics_total_trays m it tt ht, ?_⟩
  · simp [newMetrics, if_pos h]
  · rw [updateMetrics_exceeding, if_pos h]
  · rw [updateMetrics_percentage, if_pos h]

/-- Witness for `c1_percentage_recompute` at an 18000-second (5h) hold. -/
theorem c1_percentage_recompute_witness :
    holdThreshold < 18000 ∧
    ((newMetrics dt0900 3 18000).percentage_trays_over_hold = 0 ∧
     (newMetrics dt0900 3 18000).trays_exceeding_hold_time = 1 ∧
     (updateMetrics exSeedM dt0900 3 18000).trays_exceeding_hold_time =
       exSeedM.trays_exceeding_hold_time + 1 ∧
     (updateMetrics exSeedM dt0900 3 18000).total_trays =
       Nat.max 3 exSeedM.total_trays ∧
     (updateMetrics exSeedM dt0900 3 18000).percentage_trays_over_hold =
       (((exSeedM.trays_exceeding_hold_time + 1 : Nat) : ℚ) /
         ((Nat.max 3 exSeedM.total_trays : Nat) : ℚ)) * 100) :=
  ⟨by decide, c1_percentage_recompute exSeedM dt0900 3 18000 (by decide)⟩

/-- Claim C2, counterexample: a reading whose `initial_timestamp` is present
but unparseable makes the whole ingestion call abort: `strptime` raises
`ValueError`, and the loop catches only `KeyError` (line 112). -/
theorem c2_counterexample :
    ingest [⟨[exBadInitial]⟩] "Loc" [] = .error () ∧
    aggregate_metrics [⟨[exBadInitial]⟩] [] "Loc" = .error () := by
  exact ⟨rfl, rfl⟩

/-- Claim C2 (amended): a reading missing a required field is skipped with no
mutation and processing continues, but a reading whose timestamp string is
present and does not parse under its fixed format aborts the batch and the
run (the `except` clause catches only `KeyError`, not `ValueError`). -/
theorem c2_malformed_handling :
    (∀ (st : AggState) (loc : String) (tt : Nat) (r : Reading),
      r.initial_timestamp = none → processReading st loc tt r = .ok st) ∧
    (∀ (st : AggState) (loc : String) (tt : Nat) (r : Reading)
      (str1 : String) (it : DateTime), r.initial_timestamp = some str1 →
      parseInitialTS str1 = some it → r.current_timestamp = none →
      processReading st loc tt r = .ok st) ∧
    (∀ (st : AggState) (loc : String) (tt : Nat) (r : Reading)
      (str1 : String), r.initial_timestamp = some str1 →
      parseInitialTS str1 = none → processReading st loc tt r = .error ()) ∧
    (∀ (st : AggState) (loc : String) (tt : Nat) (r : Reading)
      (str1 str2 : String) (it : DateTime), r.initial_timestamp = some str1 →
      parseInitialTS str1 = some it → r.current_timestamp = some str2 →
      parseCurrentTS str2 = none → processReading st loc tt r = .error ()) :=
  ⟨processReading_missing_initial,
   fun st loc tt r str1 it h1 h2 h3 =>
     processReading_missing_current st loc tt r str1 it h1 h2 h3,
   fun st loc tt r str1 h1 h2 =>
     processReading_bad_initial st loc tt r str1 h1 h2,
   fun st loc tt r str1 str2 it h1 h2 h3 h4 =>
     processReading_bad_current st loc tt r str1 str2 it h1 h2 h3 h4⟩

/-- Witness for `c2_malformed_handling`: the unparseable-initial case at a
concrete reading. -/
theorem c2_malformed_handling_witness :
    processReading [] "Loc" 1 exBadInitial = .error () :=
  c2_malformed_handling.2.2.1 [] "Loc" 1 exBadInitial "garbage" rfl rfl

/-- Claim C3: on an update of an existing group, `last_tray_time` and
`last_tray_count` become this batch's `(initial_timestamp, total_trays)`
exactly when `total_trays` is strictly greater than the stored
`last_tray_count`, or equal with a strictly later `initial_timestamp`
(lines 97-103); and the three-batch example (09:00, 5), (09:05, 5),
(08:50, 6) ends with `last_tray_time = 08:50`, `last_tray_count = 6`. -/
theorem c3_last_tray_tie_break :
    (∀ (m : Metrics) (it : DateTime) (tt : Nat) (ht : Int),
      (updateMetrics m it tt ht).last_tray_time =
        (if m.last_tray_count < tt ∨ (tt = m.last_tray_count ∧
            DateTime.ltB m.last_tray_time it) then it
         else m.last_tray_time) ∧
      (updateMetrics m it tt ht).last_tray_count =
        (if m.last_tray_count < tt ∨ (tt = m.last_tray_count ∧
            DateTime.ltB m.last_tray_time it) then tt
         else m.last_tray_count)) ∧
    (ingest [exBatchA, exBatchB, exBatchC] "Loc" []).map
      (fun st => (lookup2 st "2025-03-01" "Loc").map
        (fun m => (m.last_tray_time, m.last_tray_count))) =
      .ok (some (⟨2025, 3, 1, 8, 50, 0⟩, 6)) := by
  refine ⟨fun m it tt ht =>
    ⟨updateMetrics_last_time m it tt ht, updateMetrics_last_count m it tt ht⟩,
    rfl⟩

/-- Claim C4: across any ingestion run, an existing group's `total_trays`
and `trays_exceeding_hold_time` never decrease and its `first_tray_time`
never increases; ingesting batches of sizes [3, 5, 2, 7] ends with
`total_trays = 7`. -/
theorem c4_monotonicity :
    (∀ (data : List Batch) (loc : String) (st s1 : AggState),
      ingest data loc st = .ok s1 → ∀ d l m, lookup2 st d l = some m →
        ∃ m1, lookup2 s1 d l = some m1 ∧
          m.total_trays ≤ m1.total_trays ∧
          m.trays_exceeding_hold_time ≤ m1.trays_exceeding_hold_time ∧
          DateTime.leB m1.first_tray_time m.first_tray_time = true) ∧
    (ingest [exBatchOf 3, exBatchOf 5, exBatchOf 2, exBatchOf 7] "Loc" []).map
      (fun st => (lookup2 st "2025-03-01" "Loc").map Metrics.total_trays) =
      .ok (some 7) := by
  exact ⟨fun data loc st s1 h => ingest_monoLe data loc st s1 h, rfl⟩

/-- Witness for `c4_monotonicity`: one batch ingested on top of a seeded
one-group state. -/
theorem c4_monotonicity_witness :
    ∃ m1, lookup2 ((ingest [exBatchC] "Loc" exSeedState).toOption.getD [])
        "2025-03-01" "Loc" = some m1 ∧
      exSeedM.total_trays ≤ m1.total_trays ∧
      exSeedM.trays_exceeding_hold_time ≤ m1.trays_exceeding_hold_time ∧
      DateTime.leB m1.first_tray_time exSeedM.first_tray_time = true :=
  c4_monotonicity.1 [exBatchC] "Loc" exSeedState
    ((ingest [exBatchC] "Loc" exSeedState).toOption.getD []) (by rfl)
    "2025-03-01" "Loc" exSeedM (by rfl)

/-- Claim C5: after the finalizer pass every (day, location) group has
`average_hold_time = total_hold_time / total_trays` when `total_trays > 0`
and `0` otherwise (line 121); two readings held 2h and 6h yield an average
of 4h (14400 s). -/
theorem c5_average_hold_time :
    (∀ (data : List Batch) (dm : AggState) (loc : String) (s2 : AggState),
      aggregate_metrics data dm loc = .ok s2 →
      ∀ p ∈ s2, ∀ q ∈ p.2, q.2.average_hold_time =
        some (if 0 < q.2.total_trays then
          (q.2.total_hold_time : ℚ) / (q.2.total_trays : ℚ) else 0)) ∧
    ((aggregate_metrics [exBatchAvg] [] "Loc").map
      (fun st => (lookup2 st "2025-03-01" "Loc").map
        Metrics.average_hold_time) =
      .ok (some (some (((28800 : Int) : ℚ) / ((2 : Nat) : ℚ)))) ∧
      ((28800 : Int) : ℚ) / ((2 : Nat) : ℚ) = 14400) := by
  constructor
  · intro data dm loc s2 h p hp q hq
    obtain ⟨s1, hi, he⟩ := aggregate_metrics_split h
    subst he
    have hAll : AllVals (fun m => m.average_hold_time =
        some (if 0 < m.total_trays then
          (m.total_hold_time : ℚ) / (m.total_trays : ℚ) else 0))
        (sortState (finalizePass s1)) := by
      refine allVals_sortState
        (allVals_finalizePass (P := fun _ => True) (allVals_true s1) ?_)
      intro m hm
      simp [setAverage]
    exact hAll p hp q hq
  · exact ⟨rfl, by push_cast; norm_num⟩

/-- Witness for `c5_average_hold_time` at the 2h/6h example. -/
theorem c5_average_hold_time_witness :
    exAvgM.average_hold_time =
      some (if 0 < exAvgM.total_trays then
        (exAvgM.total_hold_time : ℚ) / (exAvgM.total_trays : ℚ) else 0) :=
  c5_average_hold_time.1 [exBatchAvg] [] "Loc" exAvgState (by rfl)
    ("2025-03-01", [("Loc", exAvgM)]) (by simp [exAvgState])
    ("Loc", exAvgM) (by simp)

/-- Claim C6: the finalized state has its days sorted ascending in the
lexicographic string order and, within each day, its location names sorted
ascending, for every input (line 123); the output is therefore identical and
identically ordered across runs on identical input. -/
theorem c6_ordered_output :
    ∀ (data : List Batch) (dm : AggState) (loc : String) (s2 : AggState),
      aggregate_metrics data dm loc = .ok s2 →
      (s2.map Prod.fst).Sorted (fun a b => strLeB a b = true) ∧
      ∀ p ∈ s2, (p.2.map Prod.fst).Sorted (fun a b => strLeB a b = true) := by
  intro data dm loc s2 h
  obtain ⟨s1, hi, he⟩ := aggregate_metrics_split h
  subst he
  exact ⟨sortState_days_sorted _, fun p hp => sortState_inner_sorted _ p hp⟩

/-- Witness for `c6_ordered_output` at a concrete run. -/
theorem c6_ordered_output_witness :
    ((((aggregate_metrics [exBatchAvg] exSeedState "Beta").toOption.getD
        []).map Prod.fst).Sorted (fun a b => strLeB a b = true)) ∧
    ∀ p ∈ ((aggregate_metrics [exBatchAvg] exSeedState "Beta").toOption.getD
        []), (p.2.map Prod.fst).Sorted (fun a b => strLeB a b = true) :=
  c6_ordered_output [exBatchAvg] exSeedState "Beta"
    ((aggregate_metrics [exBatchAvg] exSeedState "Beta").toOption.getD [])
    (by rfl)

/-- Claim C7: the claim is right and the code has a slip. Ingesting an empty
batch sequence is indeed harmless (no mutation, no group, no error), and a
whole run over no locations yields the empty state; but a location whose
query SUCCEEDS with zero rows makes `fetch_sensor_readings` return the value
of `print(...)` — Python `None` — instead of an empty list (line 58), and
`aggregate_metrics` then raises `TypeError` iterating it (line 70), aborting
the run. Only a FAILED fetch yields `[]` (line 61) and is harmless. -/
theorem c7_empty_location :
    fetch_sensor_readings (.ok []) = none ∧
    mainStep none [] "Loc" = .error () ∧
    (∀ (st : AggState) (loc : String), ingest [] loc st = .ok st) ∧
    (∀ (st : AggState) (loc : String),
      fetch_sensor_readings (.error ()) = some [] ∧
      mainStep (some []) st loc = aggregate_metrics [] st loc) ∧
    runAll [] = .ok [] := by
  exact ⟨rfl, rfl, fun st loc => rfl, fun st loc => ⟨rfl, rfl⟩, rfl⟩

/-- Claim C8: a reading missing a required field is skipped with no mutation
(the `KeyError` is caught, line 112) while the well-formed readings of the
same batch still contribute; the example batch of one well-formed reading
(1h hold) and one reading missing `current_timestamp` yields a group built
from the well-formed reading alone (with `total_trays = len(readings) = 2`,
counted before the skip), and the run does not raise. -/
theorem c8_missing_field_skip :
    (∀ (st : AggState) (loc : String) (tt : Nat) (r : Reading),
      r.initial_timestamp = none → processReading st loc tt r = .ok st) ∧
    (∀ (st : AggState) (loc : String) (tt : Nat) (r : Reading)
      (str1 : String) (it : DateTime), r.initial_timestamp = some str1 →
      parseInitialTS str1 = some it → r.current_timestamp = none →
      processReading st loc tt r = .ok st) ∧
    (aggregate_metrics [⟨[exWellFormed, exMissingCurrent]⟩] [] "Loc" =
      .ok [("2025-03-01", [("Loc",
        ⟨⟨2025, 3, 1, 9, 0, 0⟩, 2, ⟨2025, 3, 1, 9, 0, 0⟩, 0, 2, 0, 3600,
          some (((3600 : Int) : ℚ) / ((2 : Nat) : ℚ))⟩)])] ∧
      ((3600 : Int) : ℚ) / ((2 : Nat) : ℚ) = 1800) := by
  refine ⟨processReading_missing_initial, ?_, rfl, by push_cast; norm_num⟩
  intro st loc tt r str1 it h1 h2 h3
  exact processReading_missing_current st loc tt r str1 it h1 h2 h3

/-- Witness for `c8_missing_field_skip`: the missing-`current_timestamp`
skip at a concrete reading. -/
theorem c8_missing_field_skip_witness :
    processReading exSeedState "Loc" 2 exMissingCurrent = .ok exSeedState :=
  c8_missing_field_skip.2.1 exSeedState "Loc" 2 exMissingCurrent
    "20250301_091000" ⟨2025, 3, 1, 9, 10, 0⟩ rfl rfl rfl

/-- Claim C9, counterexample: a reading whose `current_timestamp` precedes
its `initial_timestamp` (hold time -3600 s) is NOT treated as malformed: it
creates and contributes to a group whose `total_hold_time` is negative, so
a negative hold time does reach a group's totals. -/
theorem c9_counterexample :
    (aggregate_metrics [⟨[exNegative]⟩] [] "Loc").map
      (fun st => (lookup2 st "2025-03-01" "Loc").map
        Metrics.total_hold_time) = .ok (some (-3600)) ∧
    ¬(0 : Int) ≤ -3600 := by
  exact ⟨rfl, by norm_num⟩

/-- Claim C9 (amended): the code never examines the sign of `hold_time`
(line 77 computes it, nothing checks it): a reading whose two timestamps
both parse is processed unconditionally, and its — possibly negative —
hold time is added to the group's `total_hold_time`; only a missing field
is skipped. -/
theorem c9_negative_not_skipped :
    (∀ (st : AggState) (loc : String) (tt : Nat) (r : Reading)
      (str1 str2 : String) (it ct : DateTime),
      r.initial_timestamp = some str1 → parseInitialTS str1 = some it →
      r.current_timestamp = some str2 → parseCurrentTS str2 = some ct →
      processReading st loc tt r = .ok (processParsed st loc tt it ct)) ∧
    (∀ (m : Metrics) (it : DateTime) (tt : Nat) (ht : Int),
      (updateMetrics m it tt ht).total_hold_time = m.total_hold_time + ht) ∧
    (∀ (it : DateTime) (tt : Nat) (ht : Int),
      (newMetrics it tt ht).total_hold_time = ht) := by
  refine ⟨?_, updateMetrics_total_hold, fun it tt ht => rfl⟩
  intro st loc tt r str1 str2 it ct h1 h2 h3 h4
  exact processReading_parsed st loc tt r str1 str2 it ct h1 h2 h3 h4

/-- Witness for `c9_negative_not_skipped`: the negative-hold reading is
processed, not skipped. -/
theorem c9_negative_not_skipped_witness :
    processReading [] "Loc" 1 exNegative =
      .ok (processParsed [] "Loc" 1 ⟨2025, 3, 1, 12, 0, 0⟩
        ⟨2025, 3, 1, 11, 0, 0⟩) :=
  c9_negative_not_skipped.1 [] "Loc" 1 exNegative "20250301_120000"
    "2025-03-01 11:00:00" ⟨2025, 3, 1, 12, 0, 0⟩ ⟨2025, 3, 1, 11, 0, 0⟩
    rfl rfl rfl rfl

/-- Claim C10: in any reporting run starting from the empty state, every
group ever created holds `total_trays ≥ 1` (a group is created only while
processing a reading of its batch, so the batch length is at least 1, and
`total_trays` never decreases), hence the finalizer division is never by
zero and its `total_trays = 0` fallback is never the value taken: every
group of the final state carries `average = total_hold_time / total_trays`. -/
theorem c10_groups_nonempty :
    ∀ (locs : List (List Batch × String)) (st : AggState),
      runAll locs = .ok st → ∀ p ∈ st, ∀ q ∈ p.2,
        1 ≤ q.2.total_trays ∧
        q.2.average_hold_time =
          some ((q.2.total_hold_time : ℚ) / (q.2.total_trays : ℚ)) := by
  intro locs st h
  refine except_foldlM_inv _
    (AllVals (fun m => 1 ≤ m.total_trays ∧ m.average_hold_time =
      some ((m.total_hold_time : ℚ) / (m.total_trays : ℚ)))) ?_ locs [] st
    (fun p hp => absurd hp (List.not_mem_nil p)) h
  intro s x s1 hq hx
  obtain ⟨sa, hi, he⟩ := aggregate_metrics_split hx
  subst he
  have hge1 : AllVals (fun m => 1 ≤ m.total_trays) s :=
    fun p hp q hqq => (hq p hp q hqq).1
  have hga : AllVals (fun m => 1 ≤ m.total_trays) sa :=
    ingest_ge1 x.1 x.2 hge1 hi
  refine allVals_sortState (allVals_finalizePass hga ?_)
  intro m hm
  refine ⟨hm, ?_⟩
  simp [setAverage, Nat.pos_of_ne_zero, if_pos (show 0 < m.total_trays from hm)]

/-- Witness for `c10_groups_nonempty` at a one-location run. -/
theorem c10_groups_nonempty_witness :
    1 ≤ exAvgM.total_trays ∧
    exAvgM.average_hold_time =
      some ((exAvgM.total_hold_time : ℚ) / (exAvgM.total_trays : ℚ)) :=
  c10_groups_nonempty [([exBatchAvg], "Loc")] exAvgState (by rfl)
    ("2025-03-01", [("Loc", exAvgM)]) (by simp [exAvgState])
    ("Loc", exAvgM) (by simp)
